import Mathlib

/-!
Verification development for the mp3-to-CDDA converter (src/src/conversion.rs).

The sample pipeline of `conversion.rs` is embedded shallowly:

- interleaved 16-bit samples become `List Int`;
- the external rubato resampler (`SincFixedIn`, an external crate reached
  through its construct/process interface at src/src/conversion.rs lines
  201-229) is abstracted as an `RFilter`: a state type, an initial state
  produced by the constructor, and a `process` function; `resample_audio`
  constructs a fresh state (`F.init`) on every call, exactly as the source
  constructs a fresh `SincFixedIn` inside `resample_audio` for every block;
- `f64` arithmetic is carried out in exact rational arithmetic `ℚ`; the
  facts proved about it (sign of `-32768/32767 + 1`, saturation bounds of
  the Rust float-to-int `as` cast) are insensitive to floating-point
  rounding error at the magnitudes involved;
- rounding is Rust's `f64::round` (half away from zero), and the final
  `as i16` cast saturates into `[-32768, 32767]`, as Rust defines it.
-/

/-- One application of Rust's `step_by(2)` on a list: every second element,
starting with the first (src line 223; line 224 is `stepTwo (l.drop 1)`). -/
def stepTwo {α : Type} : List α → List α
  | [] => []
  | [x] => [x]
  | x :: _ :: xs => x :: stepTwo xs

/-- `convert_to_stereo` (src lines 180-189): duplicate each sample when the
block is mono, otherwise return the interleaved samples unchanged. -/
def convert_to_stereo (samples : List Int) (channels : Nat) : List Int :=
  if channels = 1 then (samples.map (fun s => [s, s])).flatten else samples

/-- Input scaling in `resample_audio` (src line 217):
`f64::from(*s) / f64::from(i16::MAX)`, i.e. division by 32767. -/
def normalizeSample (s : Int) : ℚ := (s : ℚ) / 32767

/-- Rust's `f64::round`: round half away from zero. -/
def roundAway (q : ℚ) : Int :=
  if 0 ≤ q then ⌊q + 1 / 2⌋ else -⌊-q + 1 / 2⌋

/-- Rust's saturating `as i16` cast applied to an integer: clamp into the
16-bit signed range. -/
def satI16 (n : Int) : Int :=
  if n < -32768 then -32768 else if 32767 < n then 32767 else n

/-- Output conversion in `resample_audio` (src lines 234, 240):
`(s * f64::from(i16::MAX)).round() as i16`. -/
def toI16Sample (q : ℚ) : Int := satI16 (roundAway (q * 32767))

/-- Interface of the external resampler crate (rubato `SincFixedIn`):
a filter state type, the state a fresh constructor call returns, and the
`process` step taking per-channel sample vectors to per-channel outputs
while updating the state. -/
structure RFilter where
  S : Type
  init : S
  process : S → List (List ℚ) → S × List (List ℚ)

/-- Channel de-interleaving in `resample_audio` (src lines 220-226): mono
gives one channel vector; otherwise even positions are the left channel and
odd positions the right. -/
def mkInput (channels : Nat) (qs : List ℚ) : List (List ℚ) :=
  if channels = 1 then [qs] else [stepTwo qs, stepTwo (qs.drop 1)]

/-- Output re-interleaving in `resample_audio` (src lines 231-242): mono
output is duplicated into both channels; otherwise the two channel vectors
are zipped back into interleaved order. Every emitted sample passes through
`toI16Sample`. -/
def emitBlock (channels : Nat) (resampled : List (List ℚ)) : List Int :=
  if channels = 1 then
    ((resampled.headD []).map (fun s => [toI16Sample s, toI16Sample s])).flatten
  else
    (((resampled.headD []).zip (resampled.getD 1 [])).map
      (fun lr => [toI16Sample lr.1, toI16Sample lr.2])).flatten

/-- `resample_audio` (src lines 191-251): scale the block to rationals,
split channels, run the resampler on a FRESHLY CONSTRUCTED state (the
source constructs a new `SincFixedIn` inside this function on every call,
src line 201, modelled by `F.init`), and re-interleave the rounded,
saturated 16-bit output. -/
def resample_audio (F : RFilter) (channels : Nat) (samples : List Int) : List Int :=
  emitBlock channels (F.process F.init (mkInput channels (samples.map normalizeSample))).2

/-- `process_audio_buffer` (src lines 157-178): blocks whose source rate
differs from 44100 go through `resample_audio`; blocks at 44100 go through
`convert_to_stereo` and are written unchanged. The returned list is the
sequence of samples written to the WAV writer for this block. -/
def process_audio_buffer (F : RFilter) (rate : Nat) (channels : Nat)
    (samples : List Int) : List Int :=
  if rate ≠ 44100 then resample_audio F channels samples
  else convert_to_stereo samples channels

/-- The per-block pipeline applied to the successive decoded blocks of one
file (the body of the packet loop, src lines 121-133, restricted to its
audio path): each block is processed independently and the written samples
are concatenated. -/
def blockPipeline (F : RFilter) (rate channels : Nat)
    (blocks : List (List Int)) : List Int :=
  (blocks.map (process_audio_buffer F rate channels)).flatten

/-- Modelled from the spec: the spec (§4.4, §3 ResamplerState) requires one
resampler filter state created at file start and threaded across the
successive blocks of the file, so that block-wise output equals resampling
the whole file as one continuous stream. This definition threads the state. -/
def resampleThreadedAux (F : RFilter) (channels : Nat) :
    List (List Int) → F.S → List Int
  | [], _ => []
  | b :: bs, st =>
    let step := F.process st (mkInput channels (b.map normalizeSample))
    emitBlock channels step.2 ++ resampleThreadedAux F channels bs step.1

/-- Modelled from the spec: continuous-stream resampling of a file's blocks,
starting from the freshly constructed state at file start. -/
def resampleThreaded (F : RFilter) (channels : Nat)
    (blocks : List (List Int)) : List Int :=
  resampleThreadedAux F channels blocks F.init

/-- A genuinely stateful filter instance: it outputs the channel vectors it
received on the PREVIOUS call (one-block delay), remembering the current
input in its state. A fresh construction always restarts from silence. -/
def delayFilter : RFilter :=
  { S := List (List ℚ), init := [], process := fun st input => (input, st) }

/-- A stateless filter instance: echoes its input, state never matters. -/
def idFilter : RFilter :=
  { S := Unit, init := (), process := fun st input => (st, input) }

/-- A packet pulled from the container: either it decodes to a block of
interleaved samples, or the decoder call on it fails (corrupt data). The
packet stream itself is a finite list; exhaustion of the list models
`format.next_packet()` returning `Err` (reader end-of-stream), which the
`while let Ok(packet)` loop head (src line 121) turns into loop exit. -/
inductive Packet
  | good (samples : List Int)
  | corrupt
deriving DecidableEq

/-- Result of one per-file job, `process_file`'s `Result<()>`. -/
inductive JobResult
  | ok
  | fail (msg : String)
deriving DecidableEq

/-- Modelled from the spec: the external `hound::WavWriter` (ContainerSink,
spec §4.5) — it accumulates written samples, keeps the header's recorded
sample count, and `finalize` rewrites the header to reflect exactly the
samples written so far. The crate itself is outside src/. -/
structure WavWriter where
  samples : List Int
  headerSamples : Nat
  finalized : Bool
deriving DecidableEq

/-- Modelled from the spec: a freshly created WAV writer (src line 112,
`prepare_wav_writer`): empty data, header claiming zero samples. -/
def writerNew : WavWriter := { samples := [], headerSamples := 0, finalized := false }

/-- Modelled from the spec: the `write_sample` calls for one block append
the block's samples to the output data (src lines 171-174, 244-247). -/
def writeSamples (w : WavWriter) (l : List Int) : WavWriter :=
  { w with samples := w.samples ++ l }

/-- Modelled from the spec: `WavWriter::finalize` completes the header so
that its sample count equals the samples actually written. -/
def finalizeWriter (w : WavWriter) : WavWriter :=
  { w with headerSamples := w.samples.length, finalized := true }

/-- One input file as `process_file` observes it: whether each fallible
opening step succeeds (in source order, src lines 83-113), the probed
codec parameters, and the packet stream. -/
structure FileJob where
  openOk : Bool
  probeOk : Bool
  hasTrack : Bool
  decoderOk : Bool
  hasStem : Bool
  createOutOk : Bool
  sampleRate? : Option Nat
  channels : Nat
  packets : List Packet
deriving DecidableEq

/-- Observable outcome of `process_file`: the returned `Result`, and the
state of the output file on disk (`none` when it was never created; the
source never removes a created output file on any path). -/
structure FileOutcome where
  result : JobResult
  output? : Option WavWriter
deriving DecidableEq

/-- The packet loop of `process_file` (src lines 121-133): for each packet
pulled, first poll the cancellation flag (the n-th poll reads `cancel n`);
if set, finalize and return `Ok`. Then decode: a corrupt packet's decode
error propagates with `?` (src line 129) WITHOUT finalizing. Otherwise the
block's processed samples are written and the loop continues. When the
packet list is exhausted (`next_packet` returns `Err`), the loop exits and
the writer is finalized (src line 135). -/
def streamLoop (F : RFilter) (rate channels : Nat) (cancel : Nat → Bool) :
    List Packet → Nat → WavWriter → FileOutcome
  | [], _, w => { result := .ok, output? := some (finalizeWriter w) }
  | p :: ps, n, w =>
    if cancel n then { result := .ok, output? := some (finalizeWriter w) }
    else
      match p with
      | .corrupt => { result := .fail "Failed to decode packet", output? := some w }
      | .good samples =>
        streamLoop F rate channels cancel ps (n + 1)
          (writeSamples w (process_audio_buffer F rate channels samples))

/-- `process_file` (src lines 78-140): the fallible opening steps in source
order — open input (83), probe (90), default track (98), decoder (101),
file stem (105), WAV writer creation (112) — each propagating an error with
no output file yet created except the last, then the sample-rate check
(115-118) which runs AFTER the output file has been created, then the
packet loop. No path removes a created output file. -/
def process_file (F : RFilter) (job : FileJob) (cancel : Nat → Bool) : FileOutcome :=
  if job.openOk = false then { result := .fail "Failed to open input file", output? := none }
  else if job.probeOk = false then { result := .fail "Failed to probe media format", output? := none }
  else if job.hasTrack = false then { result := .fail "No default track found", output? := none }
  else if job.decoderOk = false then { result := .fail "Failed to create decoder", output? := none }
  else if job.hasStem = false then { result := .fail "Invalid input filename", output? := none }
  else if job.createOutOk = false then { result := .fail "Failed to prepare WAV writer", output? := none }
  else
    match job.sampleRate? with
    | none => { result := .fail "Missing sample rate", output? := some writerNew }
    | some rate => streamLoop F rate job.channels cancel job.packets 0 writerNew

/-- Rust `Path::extension` on a path string: the final path component's
part after its last dot; `none` when the component has no dot or starts
with its only dot. -/
def rustExtension (p : String) : Option String :=
  let name := (p.toList.reverse.takeWhile (fun c => c != '/')).reverse
  let rev := name.reverse
  let ext := rev.takeWhile (fun c => c != '.')
  match rev.dropWhile (fun c => c != '.') with
  | [] => none
  | _ :: stemRev => if stemRev.isEmpty then none else some (String.mk ext.reverse)

/-- Filesystem and decoder environment the batch function runs against:
which paths are directories, the regular files a directory walk yields,
whether creating a given output directory succeeds, and whether
`process_file` succeeds on a given file. -/
structure BatchEnv where
  isDir : String → Bool
  listDir : String → List String
  createDirOk : String → Bool
  processOk : String → Bool
  parent : String → String

/-- Candidate selection in `convert_files` (src lines 29-49): a directory
is walked and exactly the files whose extension equals `"mp3"` (a
case-sensitive comparison with `Some("mp3")`, src line 38) are kept; a
single file is accepted iff its extension equals `"mp3"` the same way
(src line 43); anything else is skipped with a warning (`none`). -/
def candidates (env : BatchEnv) (path : String) : Option (List String) :=
  if env.isDir path then
    some ((env.listDir path).filter (fun f => rustExtension f = some "mp3"))
  else if rustExtension path = some "mp3" then some [path]
  else none

/-- Running tallies of the batch loop: cancellation polls consumed so far,
files handed to `process_file`, and files whose processing failed (these
are logged at src line 69 and the loop continues). -/
structure BatchAcc where
  polls : Nat
  attempted : List String
  failed : List String
deriving DecidableEq

/-- What `convert_files` returns and does: the files attempted, the
per-file failures that were logged, and the batch-level error if the
function returned `Err` (aborting the remaining inputs). -/
structure BatchResult where
  attempted : List String
  failed : List String
  error? : Option String
deriving DecidableEq

/-- The inner per-file loop of `convert_files` (src lines 61-71): poll the
flag before each file — if set, break out of the file list; otherwise run
`process_file`, log a failure if it returns `Err`, and continue. -/
def innerLoop (env : BatchEnv) (cancel : Nat → Bool) :
    List String → BatchAcc → BatchAcc
  | [], acc => acc
  | f :: fs, acc =>
    if cancel acc.polls then { acc with polls := acc.polls + 1 }
    else
      innerLoop env cancel fs
        { polls := acc.polls + 1,
          attempted := acc.attempted ++ [f],
          failed := if env.processOk f then acc.failed else acc.failed ++ [f] }

/-- The outer loop of `convert_files` (src lines 23-72): poll the flag per
input path, expand the path into candidates, skip non-candidates and empty
results, then create the output directory `parent/CDDA_Converted` — a
creation failure propagates with `?` (src lines 58-59) and ABORTS the whole
batch — and finally run the inner loop over the candidate files. -/
def convertFilesLoop (env : BatchEnv) (cancel : Nat → Bool) :
    List String → BatchAcc → BatchResult
  | [], acc => { attempted := acc.attempted, failed := acc.failed, error? := none }
  | p :: ps, acc =>
    if cancel acc.polls then
      { attempted := acc.attempted, failed := acc.failed, error? := none }
    else
      let acc := { acc with polls := acc.polls + 1 }
      match candidates env p with
      | none => convertFilesLoop env cancel ps acc
      | some files =>
        if files.isEmpty then convertFilesLoop env cancel ps acc
        else if env.createDirOk (env.parent p ++ "/CDDA_Converted") then
          convertFilesLoop env cancel ps (innerLoop env cancel files acc)
        else
          { attempted := acc.attempted, failed := acc.failed,
            error? := some "Failed to create output directory" }

/-- `convert_files` (src lines 18-76). An empty path list returns `Ok`
immediately (src lines 19-21), which the loop base case also yields. -/
def convert_files (env : BatchEnv) (cancel : Nat → Bool)
    (paths : List String) : BatchResult :=
  convertFilesLoop env cancel paths { polls := 0, attempted := [], failed := [] }

/-- A cancellation flag that is never set. -/
def neverCancel : Nat → Bool := fun _ => false

/-- A cancellation flag observed false on the first poll and true from the
second poll on (monotone, as the spec requires of the shared flag). -/
def cancelAfterOne : Nat → Bool := fun n => decide (1 ≤ n)

/-- Environment whose output-directory creation always fails. -/
def envDirFail : BatchEnv :=
  { isDir := fun _ => false, listDir := fun _ => [],
    createDirOk := fun _ => false, processOk := fun _ => true,
    parent := fun _ => "p" }

/-- Environment where every directory creation succeeds and every file
fails to process. -/
def envAllOk : BatchEnv :=
  { isDir := fun _ => false, listDir := fun _ => [],
    createDirOk := fun _ => true, processOk := fun _ => false,
    parent := fun _ => "p" }

/-- Environment with one directory "d" containing a well-formed lowercase
candidate and an uppercase-extension file. -/
def envMixedCase : BatchEnv :=
  { isDir := fun p => p == "d",
    listDir := fun p => if p == "d" then ["a.mp3", "SONG.MP3"] else [],
    createDirOk := fun _ => true, processOk := fun _ => true,
    parent := fun _ => "d" }

/-- Environment with one directory "d" containing only "SONG.MP3". -/
def envUpperOnly : BatchEnv :=
  { isDir := fun p => p == "d",
    listDir := fun p => if p == "d" then ["SONG.MP3"] else [],
    createDirOk := fun _ => true, processOk := fun _ => true,
    parent := fun _ => "d" }

/-- A file whose stream has one good packet followed by a corrupt one. -/
def jobCorruptTail : FileJob :=
  { openOk := true, probeOk := true, hasTrack := true, decoderOk := true,
    hasStem := true, createOutOk := true, sampleRate? := some 44100,
    channels := 2, packets := [.good [1, 2], .corrupt] }

/-- A file whose input cannot be opened. -/
def jobNoOpen : FileJob :=
  { openOk := false, probeOk := true, hasTrack := true, decoderOk := true,
    hasStem := true, createOutOk := true, sampleRate? := some 44100,
    channels := 2, packets := [] }

/-- A file whose codec parameters carry no sample rate; every step before
the sample-rate check succeeds, so the output file has been created. -/
def jobNoRate : FileJob :=
  { openOk := true, probeOk := true, hasTrack := true, decoderOk := true,
    hasStem := true, createOutOk := true, sampleRate? := none,
    channels := 2, packets := [] }

/-- A healthy two-packet 44100 Hz stereo file. -/
def jobTwoPackets : FileJob :=
  { openOk := true, probeOk := true, hasTrack := true, decoderOk := true,
    hasStem := true, createOutOk := true, sampleRate? := some 44100,
    channels := 2, packets := [.good [1, 2], .good [3, 4]] }

/-- Scaling to ℚ and back is the identity on every integer sample that
round-trips through `toI16Sample` within the representable range. -/
theorem toI16Sample_normalize (n : Int) (h1 : -32768 ≤ n) (h2 : n ≤ 32767) :
    toI16Sample (normalizeSample n) = n := by
  have hmul : normalizeSample n * 32767 = (n : ℚ) := by
    rw [normalizeSample]; field_simp
  have hfloor : ∀ m : Int, (⌊(m : ℚ) + 1 / 2⌋ : Int) = m := by
    intro m
    rw [Int.floor_eq_iff]
    constructor <;> norm_num
  rw [toI16Sample, hmul, roundAway]
  rcases le_or_lt 0 (n : ℚ) with hn | hn
  · rw [if_pos hn, hfloor n, satI16, if_neg (by omega), if_neg (by omega)]
  · have : ¬(0 : ℚ) ≤ (n : ℚ) := not_le.mpr hn
    rw [if_neg this]
    have : -(n : ℚ) = ((-n : Int) : ℚ) := by push_cast; ring
    rw [this, hfloor (-n), satI16]
    rw [if_neg (by omega), if_neg (by omega)]
    omega

/-- Every saturated cast lands in the signed 16-bit range. -/
theorem satI16_mem (n : Int) : -32768 ≤ satI16 n ∧ satI16 n ≤ 32767 := by
  rw [satI16]
  split
  · omega
  · split <;> omega

/-- Every sample `resample_audio` emits went through `toI16Sample`. -/
theorem toI16Sample_mem (q : ℚ) : -32768 ≤ toI16Sample q ∧ toI16Sample q ≤ 32767 :=
  satI16_mem _

/-- Every element of an emitted block is a saturated 16-bit sample. -/
theorem emitBlock_mem (channels : Nat) (rs : List (List ℚ)) (x : Int)
    (hx : x ∈ emitBlock channels rs) : -32768 ≤ x ∧ x ≤ 32767 := by
  rw [emitBlock] at hx
  split at hx
  · simp only [List.mem_flatten, List.mem_map] at hx
    obtain ⟨l, ⟨a, _, rfl⟩, hxl⟩ := hx
    simp only [List.mem_cons, List.not_mem_nil, or_false, or_self] at hxl
    exact hxl ▸ toI16Sample_mem a
  · simp only [List.mem_flatten, List.mem_map] at hx
    obtain ⟨l, ⟨ab, _, rfl⟩, hxl⟩ := hx
    simp only [List.mem_cons, List.not_mem_nil, or_false] at hxl
    rcases hxl with h | h
    · exact h ▸ toI16Sample_mem ab.1
    · exact h ▸ toI16Sample_mem ab.2

/-- Even positions of the duplicated mono block recover the source block. -/
theorem mono_dup_get_even (l : List Int) :
    ∀ i : Nat, ((l.map (fun s => [s, s])).flatten).get? (2 * i) = l.get? i := by
  induction l with
  | nil => intro i; simp
  | cons x xs ih =>
    intro i
    cases i with
    | zero => simp
    | succ j =>
      have h2 : 2 * (j + 1) = 2 * j + 1 + 1 := by ring
      simp only [List.map_cons, List.flatten_cons, h2, List.cons_append,
        List.get?_cons_succ, List.nil_append]
      exact ih j

/-- Odd positions of the duplicated mono block recover the source block. -/
theorem mono_dup_get_odd (l : List Int) :
    ∀ i : Nat, ((l.map (fun s => [s, s])).flatten).get? (2 * i + 1) = l.get? i := by
  induction l with
  | nil => intro i; simp
  | cons x xs ih =>
    intro i
    cases i with
    | zero => simp
    | succ j =>
      have h2 : 2 * (j + 1) + 1 = 2 * j + 1 + 1 + 1 := by ring
      simp only [List.map_cons, List.flatten_cons, h2, List.cons_append,
        List.get?_cons_succ, List.nil_append]
      exact ih j

/-- Claim C5: the channel-mixing step maps a mono block `[s0, s1, ...]` to
the stereo-interleaved `[s0, s0, s1, s1, ...]` — each sample duplicated at
full scale, order preserved, output length exactly twice the input length —
and a `channel_count = 2` block passes through unchanged. -/
theorem mono_duplication (l : List Int) (i : Nat) :
    (convert_to_stereo l 1).length = 2 * l.length ∧
    (convert_to_stereo l 1).get? (2 * i) = l.get? i ∧
    (convert_to_stereo l 1).get? (2 * i + 1) = l.get? i ∧
    convert_to_stereo l 2 = l := by
  refine ⟨?_, ?_, ?_, by simp [convert_to_stereo]⟩
  · rw [convert_to_stereo, if_pos rfl]
    induction l with
    | nil => simp
    | cons x xs ih => simp only [List.map_cons, List.flatten_cons,
        List.length_append, List.length_cons, List.length_nil, ih]; omega
  · rw [convert_to_stereo, if_pos rfl]; exact mono_dup_get_even l i
  · rw [convert_to_stereo, if_pos rfl]; exact mono_dup_get_odd l i

/-- Claim C10: for every channel count other than 1 — including counts
greater than 2 — the channel-mixing step returns the interleaved sample
sequence completely unchanged: no truncation, downmix, or error. -/
theorem non_mono_passthrough (channels : Nat) (l : List Int)
    (h : channels ≠ 1) : convert_to_stereo l channels = l := by
  simp [convert_to_stereo, h]

/-- Witness for C10 at a 6-channel block. -/
theorem non_mono_passthrough_witness :
    convert_to_stereo [1, 2, 3, 4, 5, 6, 7, 8, 9, 10, 11, 12] 6 =
      [1, 2, 3, 4, 5, 6, 7, 8, 9, 10, 11, 12] :=
  non_mono_passthrough 6 _ (by decide)

/-- Claim C4: a block whose source rate equals 44100 Hz takes the identity
fast path: a 44100 Hz stereo block is written bit-identically, and the
output at 44100 Hz never depends on the interpolation filter at all. -/
theorem equal_rate_identity (F G : RFilter) (channels : Nat) (samples : List Int) :
    process_audio_buffer F 44100 2 samples = samples ∧
    process_audio_buffer F 44100 channels samples =
      process_audio_buffer G 44100 channels samples := by
  constructor <;> simp [process_audio_buffer, convert_to_stereo]

/-- Counterexample to C9 as stated: the minimum 16-bit sample is scaled by
`1 / 32767` to a value strictly below -1.0, outside the claimed
`[-1.0, 1.0]` normalized range. -/
theorem normalize_min_sample_below_neg_one : normalizeSample (-32768) < -1 := by
  rw [normalizeSample]
  norm_num

/-- Claim C9 (amended): in the resampling path, integer samples are scaled
by `1 / 32767` — which lands in `[-1, 1]` for every sample except the
minimum `-32768`, which falls slightly below `-1` — and every final output
sample of `resample_audio` is rounded and clamped into `[-32768, 32767]`
regardless of what the filter produced (no wrap-around). -/
theorem resample_scale_and_clamp (s : Int) (hs1 : -32767 ≤ s) (hs2 : s ≤ 32767)
    (F : RFilter) (channels : Nat) (samples : List Int) (x : Int)
    (hx : x ∈ resample_audio F channels samples) :
    (-1 ≤ normalizeSample s ∧ normalizeSample s ≤ 1) ∧
    (-32768 ≤ x ∧ x ≤ 32767) := by
  refine ⟨⟨?_, ?_⟩, emitBlock_mem channels _ x hx⟩
  · rw [normalizeSample, le_div_iff₀ (by norm_num : (0 : ℚ) < 32767)]
    have : ((-32767 : Int) : ℚ) ≤ (s : ℚ) := by exact_mod_cast hs1
    push_cast at this ⊢
    linarith
  · rw [normalizeSample, div_le_one (by norm_num : (0 : ℚ) < 32767)]
    exact_mod_cast hs2

/-- Witness for C9 (amended) at sample 100 and an output of the mono
resampling path. -/
theorem resample_scale_and_clamp_witness :
    ((-1 ≤ normalizeSample 100 ∧ normalizeSample 100 ≤ 1) ∧
      (-32768 ≤ (5 : Int) ∧ (5 : Int) ≤ 32767)) :=
  resample_scale_and_clamp 100 (by norm_num) (by norm_num) idFilter 1 [5] 5
    (by
      have h : resample_audio idFilter 1 [5] = [5, 5] := by
        simp [resample_audio, idFilter, mkInput, emitBlock,
          toI16Sample_normalize 5 (by norm_num) (by norm_num)]
      rw [h]; simp)

/-- With a stateless filter, threading is invisible: block-wise resampling
agrees with continuous-stream resampling for every block sequence. -/
theorem threadedAux_of_stateless (F : RFilter) (channels : Nat)
    (hstateless : ∀ st input, (F.process st input).2 = (F.process F.init input).2) :
    ∀ (bs : List (List Int)) (st : F.S),
      resampleThreadedAux F channels bs st =
        (bs.map (resample_audio F channels)).flatten := by
  intro bs
  induction bs with
  | nil => intro st; simp [resampleThreadedAux]
  | cons b bs ih =>
    intro st
    simp only [resampleThreadedAux, List.map_cons, List.flatten_cons]
    rw [hstateless st, ih]
    rfl

/-- Counterexample to C3 as stated: the code constructs a fresh resampler
state inside `resample_audio` for every block, so for a genuinely stateful
filter the block-wise output differs from continuous-stream resampling
already on a two-block mono file at 22050 Hz. -/
theorem blockwise_differs_from_threaded :
    blockPipeline delayFilter 22050 1 [[5], [7]] ≠
      resampleThreaded delayFilter 1 [[5], [7]] := by
  have hL : blockPipeline delayFilter 22050 1 [[5], [7]] = [] := by
    simp [blockPipeline, process_audio_buffer, resample_audio, delayFilter,
      mkInput, emitBlock]
  have hR : resampleThreaded delayFilter 1 [[5], [7]] = [5, 5] := by
    simp [resampleThreaded, resampleThreadedAux, delayFilter, mkInput, emitBlock,
      toI16Sample_normalize 5 (by norm_num) (by norm_num)]
  rw [hL, hR]
  simp

/-- Claim C3 (amended): `resample_audio` creates a new resampler filter
state for each decoded block, so each block is resampled independently from
the freshly constructed state; consequently block-wise processing agrees
with resampling the file as one continuous stream exactly when the filter's
output is insensitive to its state. -/
theorem blockwise_eq_threaded_iff_stateless (F : RFilter) (rate channels : Nat)
    (blocks : List (List Int)) (hrate : rate ≠ 44100)
    (hstateless : ∀ st input, (F.process st input).2 = (F.process F.init input).2) :
    blockPipeline F rate channels blocks = resampleThreaded F channels blocks := by
  rw [blockPipeline, resampleThreaded, threadedAux_of_stateless F channels hstateless]
  have hfun : process_audio_buffer F rate channels = resample_audio F channels :=
    funext fun b => by simp [process_audio_buffer, hrate]
  rw [hfun]

/-- Witness for C3 (amended) with the stateless echo filter. -/
theorem blockwise_eq_threaded_iff_stateless_witness :
    blockPipeline idFilter 22050 1 [[3]] = resampleThreaded idFilter 1 [[3]] :=
  blockwise_eq_threaded_iff_stateless idFilter 22050 1 [[3]] (by decide)
    (fun st input => rfl)

/-- If the flag stays false for the first `k` polls of the packet loop and
is observed true at poll `k`, and the first `k` packets decode to blocks
`bs`, the loop finalizes the writer with exactly those blocks written. -/
theorem streamLoop_cancelled (F : RFilter) (rate channels : Nat) (cancel : Nat → Bool) :
    ∀ (k : Nat) (ps : List Packet) (bs : List (List Int)) (n : Nat) (w : WavWriter),
      (∀ i, i < k → cancel (n + i) = false) → cancel (n + k) = true →
      k < ps.length → ps.take k = bs.map Packet.good →
      streamLoop F rate channels cancel ps n w =
        { result := .ok,
          output? := some (finalizeWriter
            { w with samples :=
                w.samples ++ (bs.map (process_audio_buffer F rate channels)).flatten }) } := by
  intro k
  induction k with
  | zero =>
    intro ps bs n w _ hc hlen htake
    cases ps with
    | nil => simp at hlen
    | cons p ps' =>
      have hbs : bs = [] := by cases bs <;> simp_all
      subst hbs
      rw [Nat.add_zero] at hc
      simp [streamLoop, hc]
  | succ k ih =>
    intro ps bs n w hb hc hlen htake
    cases ps with
    | nil => simp at hlen
    | cons p ps' =>
      cases bs with
      | nil => simp at htake
      | cons b bs' =>
        simp only [List.take_succ_cons, List.map_cons, List.cons.injEq] at htake
        obtain ⟨hp1, hp2⟩ := htake
        subst hp1
        have hcn : cancel n = false := by
          have := hb 0 (Nat.succ_pos k)
          simpa using this
        have hlen' : k < ps'.length := by simp at hlen; omega
        have hb' : ∀ i, i < k → cancel (n + 1 + i) = false := by
          intro i hi
          have := hb (i + 1) (by omega)
          rwa [show n + (i + 1) = n + 1 + i by omega] at this
        have hc' : cancel (n + 1 + k) = true := by
          rwa [show n + 1 + k = n + (k + 1) by omega]
        have hrec := ih ps' bs' (n + 1)
          (writeSamples w (process_audio_buffer F rate channels b)) hb' hc' hlen' hp2
        simp only [streamLoop]
        rw [if_neg (by simp [hcn])]
        show streamLoop F rate channels cancel ps' (n + 1)
          (writeSamples w (process_audio_buffer F rate channels b)) = _
        rw [hrec]
        simp [writeSamples, List.append_assoc]

/-- With the flag never set, a packet stream that is a good prefix followed
by a corrupt packet makes the loop return the decode failure, leaving the
writer with the prefix written and NOT finalized. -/
theorem streamLoop_corrupt (F : RFilter) (rate channels : Nat) (cancel : Nat → Bool)
    (hcancel : ∀ i, cancel i = false) :
    ∀ (bs : List (List Int)) (rest : List Packet) (n : Nat) (w : WavWriter),
      streamLoop F rate channels cancel (bs.map Packet.good ++ Packet.corrupt :: rest) n w =
        { result := .fail "Failed to decode packet",
          output? := some
            { w with samples :=
                w.samples ++ (bs.map (process_audio_buffer F rate channels)).flatten } } := by
  intro bs
  induction bs with
  | nil =>
    intro rest n w
    simp only [List.map_nil, List.nil_append, streamLoop]
    rw [if_neg (by simp [hcancel n])]
    simp
  | cons b bs ih =>
    intro rest n w
    simp only [List.map_cons, List.cons_append, streamLoop]
    rw [if_neg (by simp [hcancel n])]
    show streamLoop F rate channels cancel (bs.map Packet.good ++ Packet.corrupt :: rest)
      (n + 1) (writeSamples w (process_audio_buffer F rate channels b)) = _
    rw [ih]
    simp [writeSamples, List.append_assoc]

/-- Claim C1: when the cancellation flag is observed true at some poll
inside the packet loop (after `k` packets were decoded and written), the
job stops early and returns `Ok`, and the output WAV is finalized with
exactly the samples written so far — its header count equals the length of
the data actually written, a valid shorter file rather than one whose
header claims more frames than are present. -/
theorem cancellation_finalizes_partial (F : RFilter) (job : FileJob)
    (cancel : Nat → Bool) (rate k : Nat) (bs : List (List Int))
    (h1 : job.openOk = true) (h2 : job.probeOk = true) (h3 : job.hasTrack = true)
    (h4 : job.decoderOk = true) (h5 : job.hasStem = true) (h6 : job.createOutOk = true)
    (h7 : job.sampleRate? = some rate)
    (h8 : ∀ i, i < k → cancel i = false) (h9 : cancel k = true)
    (h10 : k < job.packets.length)
    (h11 : job.packets.take k = bs.map Packet.good) :
    process_file F job cancel =
      { result := .ok,
        output? := some
          { samples := (bs.map (process_audio_buffer F rate job.channels)).flatten,
            headerSamples :=
              ((bs.map (process_audio_buffer F rate job.channels)).flatten).length,
            finalized := true } } := by
  have hb : ∀ i, i < k → cancel (0 + i) = false := by
    intro i hi; simpa using h8 i hi
  have hc : cancel (0 + k) = true := by simpa using h9
  have hloop := streamLoop_cancelled F rate job.channels cancel k job.packets bs 0
    writerNew hb hc h10 h11
  simp [process_file, h1, h2, h3, h4, h5, h6, h7]
  rw [hloop]
  simp [finalizeWriter, writerNew]

/-- Witness for C1: a two-packet 44100 Hz stereo file cancelled at the
second poll keeps exactly the first packet's samples, finalized. -/
theorem cancellation_finalizes_partial_witness :
    process_file idFilter jobTwoPackets cancelAfterOne =
      { result := .ok,
        output? := some { samples := [1, 2], headerSamples := 2, finalized := true } } := by
  simpa [jobTwoPackets, process_audio_buffer, convert_to_stereo] using
    cancellation_finalizes_partial idFilter jobTwoPackets cancelAfterOne 44100 1 [[1, 2]]
      rfl rfl rfl rfl rfl rfl rfl
      (fun i hi => by
        have h0 : i = 0 := by omega
        subst h0; rfl)
      rfl (by decide) rfl

/-- Counterexample to C2 as stated: on a stream whose second packet is
corrupt, `process_file` returns a decode failure — the per-file job fails
rather than treating the corruption as end-of-stream — and the output is
left unfinalized by the job (its header still claims zero samples). -/
theorem corrupt_packet_fails_job :
    (process_file idFilter jobCorruptTail neverCancel).result =
        JobResult.fail "Failed to decode packet" ∧
    (process_file idFilter jobCorruptTail neverCancel).output? =
        some { samples := [1, 2], headerSamples := 0, finalized := false } := by
  decide

/-- Claim C2 (amended): a decode failure on a corrupt packet mid-stream
propagates out of the packet loop with `?`: the per-file job returns a
failure, the audio decoded before the corruption has been written to the
output data, but the job does not finalize the file (only packet-reader
end-of-stream does). -/
theorem decode_error_aborts_without_finalize (F : RFilter) (job : FileJob)
    (cancel : Nat → Bool) (rate : Nat) (bs : List (List Int)) (rest : List Packet)
    (h1 : job.openOk = true) (h2 : job.probeOk = true) (h3 : job.hasTrack = true)
    (h4 : job.decoderOk = true) (h5 : job.hasStem = true) (h6 : job.createOutOk = true)
    (h7 : job.sampleRate? = some rate)
    (hcancel : ∀ i, cancel i = false)
    (hpk : job.packets = bs.map Packet.good ++ Packet.corrupt :: rest) :
    process_file F job cancel =
      { result := .fail "Failed to decode packet",
        output? := some
          { samples := (bs.map (process_audio_buffer F rate job.channels)).flatten,
            headerSamples := 0, finalized := false } } := by
  simp [process_file, h1, h2, h3, h4, h5, h6, h7, hpk]
  rw [streamLoop_corrupt F rate job.channels cancel hcancel bs rest 0 writerNew]
  simp [writerNew]

/-- Witness for C2 (amended) on the concrete corrupt-tail file. -/
theorem decode_error_aborts_without_finalize_witness :
    process_file idFilter jobCorruptTail neverCancel =
      { result := .fail "Failed to decode packet",
        output? := some { samples := [1, 2], headerSamples := 0, finalized := false } } := by
  simpa [jobCorruptTail, process_audio_buffer, convert_to_stereo] using
    decode_error_aborts_without_finalize idFilter jobCorruptTail neverCancel 44100
      [[1, 2]] [] rfl rfl rfl rfl rfl rfl rfl (fun i => rfl) rfl

/-- Counterexample to C7 as stated: when every opening step up to and
including output creation succeeds but the stream format has no sample
rate, the job fails during its opening phase yet the created output file
is left behind — it is not removed. -/
theorem missing_rate_leaves_created_file :
    (process_file idFilter jobNoRate neverCancel).result =
        JobResult.fail "Missing sample rate" ∧
    (process_file idFilter jobNoRate neverCancel).output? ≠ none := by
  decide

/-- Claim C7 (amended): an opening-phase failure always yields a failed
outcome; failures at or before output creation leave no output file, but
the stream-format failure (missing sample rate) happens after the output
file is created and leaves that created, unfinalized file behind — nothing
is ever removed. -/
theorem opening_failure_handling (F : RFilter) (cancel : Nat → Bool) (job : FileJob) :
    (job.openOk = false ∨ job.probeOk = false ∨ job.hasTrack = false ∨
        job.decoderOk = false ∨ job.hasStem = false ∨ job.createOutOk = false →
      (process_file F job cancel).output? = none ∧
      (process_file F job cancel).result ≠ JobResult.ok) ∧
    (job.openOk = true → job.probeOk = true → job.hasTrack = true →
        job.decoderOk = true → job.hasStem = true → job.createOutOk = true →
        job.sampleRate? = none →
      process_file F job cancel =
        { result := JobResult.fail "Missing sample rate", output? := some writerNew }) := by
  constructor
  · intro h
    obtain ⟨o, pr, tr, de, st, co, sr, ch, pk⟩ := job
    cases o <;> cases pr <;> cases tr <;> cases de <;> cases st <;> cases co <;>
      simp_all [process_file]
  · intro g1 g2 g3 g4 g5 g6 g7
    simp [process_file, g1, g2, g3, g4, g5, g6, g7]

/-- Witness for C7 (amended): an unopenable input leaves no output and a
missing sample rate leaves the created empty file. -/
theorem opening_failure_handling_witness :
    ((process_file idFilter jobNoOpen neverCancel).output? = none ∧
      (process_file idFilter jobNoOpen neverCancel).result ≠ JobResult.ok) ∧
    process_file idFilter jobNoRate neverCancel =
      { result := JobResult.fail "Missing sample rate", output? := some writerNew } :=
  ⟨(opening_failure_handling idFilter neverCancel jobNoOpen).1 (Or.inl rfl),
   (opening_failure_handling idFilter neverCancel jobNoRate).2 rfl rfl rfl rfl rfl rfl rfl⟩

/-- As long as every output-directory creation succeeds, the batch loop
never returns an error, whatever the per-file outcomes are. -/
theorem convertFilesLoop_no_error (env : BatchEnv) (cancel : Nat → Bool)
    (hdir : ∀ d, env.createDirOk d = true) :
    ∀ (ps : List String) (acc : BatchAcc),
      (convertFilesLoop env cancel ps acc).error? = none := by
  intro ps
  induction ps with
  | nil => intro acc; simp [convertFilesLoop]
  | cons p ps ih =>
    intro acc
    cases hc : cancel acc.polls with
    | true => simp [convertFilesLoop, hc]
    | false =>
      cases hcand : candidates env p with
      | none => simp [convertFilesLoop, hc, hcand, ih]
      | some files =>
        cases hemp : files.isEmpty with
        | true => simp [convertFilesLoop, hc, hcand, hemp, ih]
        | false => simp [convertFilesLoop, hc, hcand, hemp, hdir, ih]

/-- With the flag never set, the inner loop hands every candidate file to
`process_file`, regardless of the per-file results. -/
theorem innerLoop_attempts_all (env : BatchEnv) (cancel : Nat → Bool)
    (hcancel : ∀ i, cancel i = false) :
    ∀ (files : List String) (acc : BatchAcc),
      (innerLoop env cancel files acc).attempted = acc.attempted ++ files := by
  intro files
  induction files with
  | nil => intro acc; simp [innerLoop]
  | cons f fs ih =>
    intro acc
    simp [innerLoop, hcancel, ih, List.append_assoc]

/-- Counterexample to C6 as stated: a failure to create the output
directory for the first input path makes `convert_files` return an error
with no file attempted — the batch does not proceed to "b.mp3". -/
theorem dir_failure_aborts_batch :
    convert_files envDirFail neverCancel ["a.mp3", "b.mp3"] =
      { attempted := [], failed := [],
        error? := some "Failed to create output directory" } := by
  decide

/-- Claim C6 (amended): per-file `process_file` failures are confined —
they are logged and the batch proceeds through every candidate file, and
`convert_files` returns no batch-level error when directory creation
succeeds — but an `IoError` from creating an output directory propagates
with `?` and aborts the whole batch. -/
theorem batch_error_confinement (env : BatchEnv) (cancel : Nat → Bool)
    (paths : List String) (hdir : ∀ d, env.createDirOk d = true) :
    (convert_files env cancel paths).error? = none ∧
    ((∀ i, cancel i = false) →
      ∀ (files : List String) (acc : BatchAcc),
        (innerLoop env cancel files acc).attempted = acc.attempted ++ files) :=
  ⟨convertFilesLoop_no_error env cancel hdir paths _,
   fun hc => innerLoop_attempts_all env cancel hc⟩

/-- Witness for C6 (amended) on an environment where every file fails to
process: no batch error, both files attempted. -/
theorem batch_error_confinement_witness :
    (convert_files envAllOk neverCancel ["a.mp3"]).error? = none ∧
    (innerLoop envAllOk neverCancel ["a.mp3", "b.mp3"]
        { polls := 0, attempted := [], failed := [] }).attempted =
      [] ++ ["a.mp3", "b.mp3"] := by
  have h := batch_error_confinement envAllOk neverCancel ["a.mp3"] (fun d => rfl)
  exact ⟨h.1, h.2 (fun i => rfl) ["a.mp3", "b.mp3"] _⟩

/-- Counterexample to C8 as stated: scanning a directory containing
"SONG.MP3" yields no candidates, and "SONG.MP3" as a single-file input is
rejected — the uppercase extension is NOT accepted. -/
theorem upper_case_rejected :
    candidates envUpperOnly "d" = some [] ∧
    candidates envUpperOnly "SONG.MP3" = none := by
  decide

/-- Claim C8 (amended): input acceptance is a case-SENSITIVE comparison of
the extension with exactly "mp3", in both the directory scan and the
single-file check; "SONG.MP3" has extension "MP3" and is therefore skipped,
while "song.mp3" is accepted. -/
theorem extension_match_case_sensitive (env : BatchEnv) (p q : String)
    (hdir : env.isDir p = true) :
    (q ∈ (candidates env p).getD [] ↔
      q ∈ env.listDir p ∧ rustExtension q = some "mp3") ∧
    (∀ p2, env.isDir p2 = false →
      ((candidates env p2).isSome ↔ rustExtension p2 = some "mp3")) ∧
    rustExtension "SONG.MP3" = some "MP3" ∧
    rustExtension "song.mp3" = some "mp3" := by
  refine ⟨?_, ?_, by decide, by decide⟩
  · simp [candidates, hdir, List.mem_filter]
  · intro p2 h2
    by_cases h : rustExtension p2 = some "mp3" <;> simp [candidates, h2, h]

/-- Witness for C8 (amended) on a directory holding "a.mp3" and
"SONG.MP3". -/
theorem extension_match_case_sensitive_witness :
    ("a.mp3" ∈ (candidates envMixedCase "d").getD [] ↔
      "a.mp3" ∈ envMixedCase.listDir "d" ∧ rustExtension "a.mp3" = some "mp3") ∧
    rustExtension "SONG.MP3" = some "MP3" := by
  have h := extension_match_case_sensitive envMixedCase "d" "a.mp3" rfl
  exact ⟨h.1, h.2.2.1⟩
